import Mathlib

/-!
Verification development for the SAR scanner BLE sighting-distribution
protocol (`ble_protocol.py`) and its peripheral-side publisher
(`ble_publisher.py`).

Modelling conventions of the shallow embedding:
* A Python `bytes` value is a `List Nat` whose elements are below 256.
* A Python `str` is a `List Nat` of Unicode code points; `str.encode("utf-8")`
  is `utf8EncodeStr` and `bytes.decode("utf-8")` is `utf8Decode`.
* `struct.pack`/`struct.unpack` with the formats `<H`, `<I`, `<i`, `<b` become
  the `pack…`/`unpack…` functions below.  `struct.pack` raises `struct.error`
  outside the representable range, so each `pack…` returns an `Option` that is
  `none` exactly where Python raises.
* Latitude/longitude fields are modelled by their scaled signed 32-bit wire
  integers (the value of Python's `int(lat * 1e7)`); the float-to-integer
  conversion is the documented truncation step and stays outside the model.
* Fallible decoding (`raise ValueError`) becomes `Except DecodeError`.
-/

/-- Errors raised by the decoding functions.  `packetTooShort` stands for the
`ValueError("Packet too short: …")` raise sites, `invalidType b` for
`ValueError("Invalid sighting type: …")`, and `badUtf8` for a propagated
`UnicodeDecodeError` from `bytes.decode("utf-8")`. -/
inductive DecodeError where
  | packetTooShort : DecodeError
  | invalidType : Nat → DecodeError
  | badUtf8 : DecodeError
deriving DecidableEq, Repr

/-- `struct.pack("<H", n)`: two little-endian bytes; Python raises outside
`0 ≤ n < 2^16`. -/
def packU16 (n : Nat) : Option (List Nat) :=
  if n < 65536 then some [n % 256, n / 256] else none

/-- `struct.unpack("<H", b)[0]` on a 2-byte buffer. -/
def unpackU16 (l : List Nat) : Nat :=
  match l with
  | [a, b] => a + 256 * b
  | _ => 0

/-- The little-endian byte list of a `Nat` below `2^32`. -/
def u32Bytes (n : Nat) : List Nat :=
  [n % 256, n / 256 % 256, n / 65536 % 256, n / 16777216]

/-- `struct.pack("<I", n)`: four little-endian bytes; Python raises outside
`0 ≤ n < 2^32`. -/
def packU32 (n : Nat) : Option (List Nat) :=
  if n < 4294967296 then some (u32Bytes n) else none

/-- `struct.unpack("<I", b)[0]` on a 4-byte buffer. -/
def unpackU32 (l : List Nat) : Nat :=
  match l with
  | [a, b, c, d] => a + 256 * b + 65536 * c + 16777216 * d
  | _ => 0

/-- The little-endian two's-complement byte list of a signed 32-bit value. -/
def i32Bytes (v : Int) : List Nat :=
  u32Bytes ((v % 4294967296).toNat)

/-- `struct.pack("<i", v)`: four little-endian two's-complement bytes; Python
raises outside `-2^31 ≤ v < 2^31`. -/
def packI32 (v : Int) : Option (List Nat) :=
  if -2147483648 ≤ v ∧ v < 2147483648 then some (i32Bytes v) else none

/-- `struct.unpack("<i", b)[0]` on a 4-byte buffer. -/
def unpackI32 (l : List Nat) : Int :=
  let u := unpackU32 l
  if u < 2147483648 then (u : Int) else (u : Int) - 4294967296

/-- The two's-complement byte of a signed 8-bit value. -/
def i8Byte (v : Int) : Nat :=
  (v % 256).toNat

/-- `struct.pack("<b", v)`: one two's-complement byte; Python raises outside
`-128 ≤ v < 128`. -/
def packI8 (v : Int) : Option Nat :=
  if -128 ≤ v ∧ v < 128 then some (i8Byte v) else none

/-- `struct.unpack("<b", bytes([b]))[0]`. -/
def unpackI8 (b : Nat) : Int :=
  if b < 128 then (b : Int) else (b : Int) - 256

/-- Python slicing `data[i:j]` on a byte list. -/
def byteSlice (l : List Nat) (i j : Nat) : List Nat :=
  (l.drop i).take (j - i)

/-- A Unicode scalar value: the code points a Python `str` may hold and that
UTF-8 can encode (no surrogates). -/
def isScalar (c : Nat) : Prop :=
  c < 1114112 ∧ ¬(55296 ≤ c ∧ c ≤ 57343)

instance (c : Nat) : Decidable (isScalar c) := by
  unfold isScalar
  infer_instance

/-- UTF-8 encoding of one code point (`chr(c).encode("utf-8")`). -/
def utf8EncodeChar (c : Nat) : List Nat :=
  if c < 128 then [c]
  else if c < 2048 then [192 + c / 64, 128 + c % 64]
  else if c < 65536 then [224 + c / 4096, 128 + c / 64 % 64, 128 + c % 64]
  else [240 + c / 262144, 128 + c / 4096 % 64, 128 + c / 64 % 64, 128 + c % 64]

/-- UTF-8 encoding of a string of code points (`s.encode("utf-8")`). -/
def utf8EncodeStr (s : List Nat) : List Nat :=
  (s.map utf8EncodeChar).flatten

/-- Decode one UTF-8 sequence from the front of a strict byte stream,
returning the code point and the remaining bytes.  Rejects stray
continuation bytes, overlong forms, surrogates and out-of-range sequences,
as CPython's strict codec does. -/
def utf8DecodeOne (l : List Nat) : Option (Nat × List Nat) :=
  let b := l.getD 0 0
  let b1 := l.getD 1 0
  let b2 := l.getD 2 0
  let b3 := l.getD 3 0
  if l.length = 0 then none
  else if b < 128 then some (b, l.drop 1)
  else if b < 194 then none
  else if b < 224 then
    if 2 ≤ l.length ∧ 128 ≤ b1 ∧ b1 < 192 then
      some ((b - 192) * 64 + (b1 - 128), l.drop 2)
    else none
  else if b < 240 then
    let c := (b - 224) * 4096 + (b1 - 128) * 64 + (b2 - 128)
    if 3 ≤ l.length ∧ (128 ≤ b1 ∧ b1 < 192) ∧ (128 ≤ b2 ∧ b2 < 192) ∧ 2048 ≤ c ∧
        ¬(55296 ≤ c ∧ c ≤ 57343) then
      some (c, l.drop 3)
    else none
  else if b < 245 then
    let c := (b - 240) * 262144 + (b1 - 128) * 4096 + (b2 - 128) * 64 + (b3 - 128)
    if 4 ≤ l.length ∧ (128 ≤ b1 ∧ b1 < 192) ∧ (128 ≤ b2 ∧ b2 < 192) ∧
        (128 ≤ b3 ∧ b3 < 192) ∧ 65536 ≤ c ∧ c < 1114112 then
      some (c, l.drop 4)
    else none
  else none

/-- Fuel-driven iteration of `utf8DecodeOne`; one unit of fuel per decoded
code point.  Kept structural in the fuel so that it evaluates inside the
kernel. -/
def utf8DecodeFuel : Nat → List Nat → Option (List Nat)
  | 0, l => if l = [] then some [] else none
  | fuel + 1, l =>
    if l = [] then some []
    else
      match utf8DecodeOne l with
      | none => none
      | some (c, r) => (utf8DecodeFuel fuel r).map (fun s => c :: s)

/-- Strict UTF-8 decoding of a whole buffer (`b.decode("utf-8")`).  The byte
length is always enough fuel because every sequence consumes at least one
byte. -/
def utf8Decode (l : List Nat) : Option (List Nat) :=
  utf8DecodeFuel l.length l

/-- Value of one ASCII hex digit (`0-9`, `A-F`, `a-f`), as used by
`bytes.fromhex`. -/
def hexDigitVal (c : Nat) : Option Nat :=
  if 48 ≤ c ∧ c ≤ 57 then some (c - 48)
  else if 65 ≤ c ∧ c ≤ 70 then some (c - 55)
  else if 97 ≤ c ∧ c ≤ 102 then some (c - 87)
  else none

/-- `bytes.fromhex` on a string of hex-digit code points: consecutive pairs of
digits become bytes; an odd count or a non-digit fails.  (CPython additionally
tolerates single spaces between pairs; the MAC strings handled here never
contain spaces, so that case is not modelled.) -/
def bytesFromHex : List Nat → Option (List Nat)
  | [] => some []
  | [_] => none
  | c1 :: c2 :: rest => do
    let h1 ← hexDigitVal c1
    let h2 ← hexDigitVal c2
    let tl ← bytesFromHex rest
    some ((16 * h1 + h2) :: tl)

/-- `encode_mac`: strip `:` (code 58) and `-` (code 45) separators, then parse
the hex string into bytes. -/
def encode_mac (s : List Nat) : Option (List Nat) :=
  bytesFromHex (s.filter (fun c => !(c == 58) && !(c == 45)))

/-- The two uppercase hex-digit code points for a byte (`f"{b:02X}"` for
`b < 256`). -/
def byteHex (b : Nat) : List Nat :=
  [if b / 16 < 10 then b / 16 + 48 else b / 16 + 55,
   if b % 16 < 10 then b % 16 + 48 else b % 16 + 55]

/-- `decode_mac`: render each byte as two uppercase hex digits, joined by
`:` (code 58). -/
def decode_mac : List Nat → List Nat
  | [] => []
  | [b] => byteHex b
  | b :: rest => byteHex b ++ 58 :: decode_mac rest

/-- `BTSighting` (dataclass in `ble_protocol.py`).  `addr`, `ts_gps`,
`local_name`, `manufacturer` and `manufacturer_hex` are strings of code
points; `lat`/`lon` hold the scaled wire integer `int(value * 1e7)` of the
Python float, `none` when the Python field is `None`. -/
structure BTSighting where
  addr : List Nat
  ts_unix : Nat
  ts_gps : Option (List Nat)
  lat : Option Int
  lon : Option Int
  rssi : Option Int
  local_name : Option (List Nat)
  manufacturer : Option (List Nat)
  manufacturer_hex : Option (List Nat)
  tx_power : Option Int
deriving DecidableEq, Repr

/-- `WiFiSighting` (dataclass in `ble_protocol.py`). -/
structure WiFiSighting where
  mac : List Nat
  ts_unix : Nat
  ts_gps : Option (List Nat)
  lat : Option Int
  lon : Option Int
  ssid : List Nat
  rssi : Option Int
deriving DecidableEq, Repr

/-- Python `x or ""` on an optional string: `None` and `""` both give `""`. -/
def pyOr (s : Option (List Nat)) : List Nat :=
  s.getD []

/-- The integer written into a coordinate slot: the scaled value, or the
sentinel `0x7FFFFFFF` when the coordinate is `None`. -/
def coordInt (o : Option Int) : Int :=
  match o with
  | none => 2147483647
  | some v => v

/-- `encode_lat_lon`: absent coordinates become the sentinel `0x7FFFFFFF`;
each value is packed as a signed little-endian 32-bit integer. -/
def encode_lat_lon (lat lon : Option Int) : Option (List Nat × List Nat) := do
  let latB ← packI32 (coordInt lat)
  let lonB ← packI32 (coordInt lon)
  some (latB, lonB)

/-- `decode_lat_lon`: unpack both signed 32-bit fields; the value
`0x7FFFFFFF` decodes to "no coordinate". -/
def decode_lat_lon (latB lonB : List Nat) : Option Int × Option Int :=
  let latInt := unpackI32 latB
  let lonInt := unpackI32 lonB
  (if latInt = 2147483647 then none else some latInt,
   if lonInt = 2147483647 then none else some lonInt)

/-- The RSSI byte value: the measurement, or the sentinel −128 when absent
(`sighting.rssi if sighting.rssi is not None else -128`). -/
def rssiInt (o : Option Int) : Int :=
  match o with
  | none => -128
  | some v => v

/-- The TX-power byte value: the measurement, or the sentinel 127 when
absent. -/
def txPowerInt (o : Option Int) : Int :=
  match o with
  | none => 127
  | some v => v

/-- The UTF-8 bytes of the name field of a BT packet: the `local_name`
string (or `""`) hard-truncated to 32 *characters*, then encoded
(`(sighting.local_name or "")[:32].encode("utf-8")`). -/
def btNameBytes (s : BTSighting) : List Nat :=
  utf8EncodeStr ((pyOr s.local_name).take 32)

/-- The UTF-8 bytes of the manufacturer field: truncation to 20 characters
(`(sighting.manufacturer or "")[:20].encode("utf-8")`). -/
def btMfrBytes (s : BTSighting) : List Nat :=
  utf8EncodeStr ((pyOr s.manufacturer).take 20)

/-- `encode_bt_sighting`: type byte 0x01, little-endian seq, 6 MAC bytes,
u32 timestamp, two i32 coordinates, signed RSSI (sentinel −128), signed TX
power (sentinel 127), flags, the two length bytes and the two string
trailers.  `none` exactly where Python raises. -/
def encode_bt_sighting (s : BTSighting) (seq_num : Nat) : Option (List Nat) := do
  let latlon ← encode_lat_lon s.lat s.lon
  let rssi : Int := rssiInt s.rssi
  let tx_power : Int := txPowerInt s.tx_power
  let name := btNameBytes s
  let mfr := btMfrBytes s
  let flags := (if name ≠ [] then 1 else 0) + (if mfr ≠ [] then 2 else 0)
  let seqB ← packU16 seq_num
  let macB ← encode_mac s.addr
  let tsB ← packU32 s.ts_unix
  let rssiB ← packI8 rssi
  let txB ← packI8 tx_power
  some ([1] ++ seqB ++ macB ++ tsB ++ latlon.1 ++ latlon.2 ++
    [rssiB, txB, flags, name.length, mfr.length] ++ name ++ mfr)

/-- `decode_bt_sighting`: the index arithmetic of the Python function, with
`data[i]` as `getD` and `data[i:j]` as `byteSlice`. -/
def decode_bt_sighting (data : List Nat) : Except DecodeError (BTSighting × Nat) := do
  if data.length < 27 then throw .packetTooShort
  else
    let sighting_type := data.getD 0 0
    if sighting_type ≠ 1 then throw (.invalidType sighting_type)
    else
      let seq_num := unpackU16 (byteSlice data 1 3)
      let mac := decode_mac (byteSlice data 3 9)
      let ts_unix := unpackU32 (byteSlice data 9 13)
      let latlon := decode_lat_lon (byteSlice data 13 17) (byteSlice data 17 21)
      let rssi := unpackI8 (data.getD 21 0)
      let tx_power := unpackI8 (data.getD 22 0)
      let name_len := data.getD 24 0
      let mfr_len := data.getD 25 0
      let name ← if name_len > 0 then
          match utf8Decode (byteSlice data 26 (26 + name_len)) with
          | some s => pure (some s)
          | none => throw .badUtf8
        else pure none
      let mfr ← if mfr_len > 0 then
          match utf8Decode (byteSlice data (26 + name_len) (26 + name_len + mfr_len)) with
          | some s => pure (some s)
          | none => throw .badUtf8
        else pure none
      pure ({ addr := mac
              ts_unix := ts_unix
              ts_gps := none
              lat := latlon.1
              lon := latlon.2
              rssi := if rssi = -128 then none else some rssi
              local_name := name
              manufacturer := mfr
              manufacturer_hex := none
              tx_power := if tx_power = 127 then none else some tx_power }, seq_num)

/-- The UTF-8 bytes of the SSID field: truncation to 32 characters
(`(sighting.ssid or "")[:32].encode("utf-8")`). -/
def wifiSsidBytes (s : WiFiSighting) : List Nat :=
  utf8EncodeStr (s.ssid.take 32)

/-- `encode_wifi_sighting`: type byte 0x02, seq, MAC, timestamp,
coordinates, RSSI and the SSID trailer. -/
def encode_wifi_sighting (s : WiFiSighting) (seq_num : Nat) : Option (List Nat) := do
  let latlon ← encode_lat_lon s.lat s.lon
  let rssi : Int := rssiInt s.rssi
  let ssid := wifiSsidBytes s
  let seqB ← packU16 seq_num
  let macB ← encode_mac s.mac
  let tsB ← packU32 s.ts_unix
  let rssiB ← packI8 rssi
  some ([2] ++ seqB ++ macB ++ tsB ++ latlon.1 ++ latlon.2 ++
    [rssiB, ssid.length] ++ ssid)

/-- `decode_wifi_sighting`. -/
def decode_wifi_sighting (data : List Nat) : Except DecodeError (WiFiSighting × Nat) := do
  if data.length < 24 then throw .packetTooShort
  else
    let sighting_type := data.getD 0 0
    if sighting_type ≠ 2 then throw (.invalidType sighting_type)
    else
      let seq_num := unpackU16 (byteSlice data 1 3)
      let mac := decode_mac (byteSlice data 3 9)
      let ts_unix := unpackU32 (byteSlice data 9 13)
      let latlon := decode_lat_lon (byteSlice data 13 17) (byteSlice data 17 21)
      let rssi := unpackI8 (data.getD 21 0)
      let ssid_len := data.getD 22 0
      let ssid ← if ssid_len > 0 then
          match utf8Decode (byteSlice data 23 (23 + ssid_len)) with
          | some s => pure s
          | none => throw .badUtf8
        else pure []
      pure ({ mac := mac
              ts_unix := ts_unix
              ts_gps := none
              lat := latlon.1
              lon := latlon.2
              ssid := ssid
              rssi := if rssi = -128 then none else some rssi }, seq_num)

/-- A well-formed input to the BT encoder: the seq fits in 16 bits, the
timestamp in 32 bits, the address is a canonical MAC string (uppercase hex,
six bytes, `:`-separated — the form `decode_mac` produces), the coordinates
are in signed 32-bit range and distinct from the sentinel, RSSI and TX power
are in signed 8-bit range, and the strings contain Unicode scalar values. -/
def btValid (x : BTSighting) (seq_num : Nat) : Prop :=
  seq_num < 65536 ∧ x.ts_unix < 4294967296 ∧
  (∃ bs, encode_mac x.addr = some bs ∧ bs.length = 6 ∧ decode_mac bs = x.addr) ∧
  (∀ v ∈ x.lat, -2147483648 ≤ v ∧ v < 2147483648 ∧ v ≠ 2147483647) ∧
  (∀ v ∈ x.lon, -2147483648 ≤ v ∧ v < 2147483648 ∧ v ≠ 2147483647) ∧
  (∀ v ∈ x.rssi, -128 ≤ v ∧ v < 128) ∧
  (∀ v ∈ x.tx_power, -128 ≤ v ∧ v < 128) ∧
  (∀ s ∈ x.local_name, ∀ c ∈ s, isScalar c) ∧
  (∀ s ∈ x.manufacturer, ∀ c ∈ s, isScalar c)

/-- A well-formed input to the WiFi encoder. -/
def wifiValid (y : WiFiSighting) (seq_num : Nat) : Prop :=
  seq_num < 65536 ∧ y.ts_unix < 4294967296 ∧
  (∃ bs, encode_mac y.mac = some bs ∧ bs.length = 6 ∧ decode_mac bs = y.mac) ∧
  (∀ v ∈ y.lat, -2147483648 ≤ v ∧ v < 2147483648 ∧ v ≠ 2147483647) ∧
  (∀ v ∈ y.lon, -2147483648 ≤ v ∧ v < 2147483648 ∧ v ≠ 2147483647) ∧
  (∀ v ∈ y.rssi, -128 ≤ v ∧ v < 128) ∧
  (∀ c ∈ y.ssid, isScalar c)

/-- The decoder's view of a BT sighting: the documented truncation and
sentinel substitutions applied to the original record.  GPS timestamp and
raw manufacturer bytes are not carried on the wire; names are truncated to
32 and the manufacturer to 20 characters with the empty string mapping to
`None`; RSSI −128 and TX power 127 collapse to `None`. -/
def normalizeBt (x : BTSighting) : BTSighting :=
  { addr := x.addr
    ts_unix := x.ts_unix
    ts_gps := none
    lat := x.lat
    lon := x.lon
    rssi := match x.rssi with
      | none => none
      | some v => if v = -128 then none else some v
    local_name :=
      if (pyOr x.local_name).take 32 = [] then none else some ((pyOr x.local_name).take 32)
    manufacturer :=
      if (pyOr x.manufacturer).take 20 = [] then none else some ((pyOr x.manufacturer).take 20)
    manufacturer_hex := none
    tx_power := match x.tx_power with
      | none => none
      | some v => if v = 127 then none else some v }

/-- The decoder's view of a WiFi sighting. -/
def normalizeWifi (y : WiFiSighting) : WiFiSighting :=
  { mac := y.mac
    ts_unix := y.ts_unix
    ts_gps := none
    lat := y.lat
    lon := y.lon
    ssid := y.ssid.take 32
    rssi := match y.rssi with
      | none => none
      | some v => if v = -128 then none else some v }

/-- The publisher state relevant to the subscription and sequencing claims
(`BLEGATTPublisher.__init__`: `_seq_num = 0`, `_subscribers = 0`, and the
live-feed characteristic starts with `notifying = False`).  `subscribers` is
an `Int` because Python's counter is an unbounded integer. -/
structure PublisherState where
  seq_num : Nat
  subscribers : Int
  live_notifying : Bool
deriving DecidableEq, Repr

/-- A freshly constructed publisher. -/
def initPublisher : PublisherState :=
  { seq_num := 0, subscribers := 0, live_notifying := false }

/-- The sequence-counter update shared by `_send_bt_notification` and
`_send_wifi_notification`: `self._seq_num = (self._seq_num + 1) % 65536`,
performed *before* the new value is encoded into the packet.  Returns the
new state and the sequence number carried by the emitted notification. -/
def nextSeq (s : PublisherState) : PublisherState × Nat :=
  ({ s with seq_num := (s.seq_num + 1) % 65536 }, (s.seq_num + 1) % 65536)

/-- The sequence numbers carried by a run of live notifications from state
`s`; each element of `kinds` is one notification (`true` = BT, `false` =
WiFi — both kinds step the same shared counter). -/
def sendSeqs : PublisherState → List Bool → List Nat
  | _, [] => []
  | s, _k :: ks => (nextSeq s).2 :: sendSeqs (nextSeq s).1 ks

/-- `BLEGATTPublisher.on_live_feed_subscribe`: `self._subscribers += 1`. -/
def on_live_feed_subscribe (s : PublisherState) : PublisherState :=
  { s with subscribers := s.subscribers + 1 }

/-- `BLEGATTPublisher.on_live_feed_unsubscribe`:
`self._subscribers = max(0, self._subscribers - 1)`. -/
def on_live_feed_unsubscribe (s : PublisherState) : PublisherState :=
  { s with subscribers := max 0 (s.subscribers - 1) }

/-- `LiveFeedCharacteristic.StartNotify`: the base class sets
`notifying = True` (returning early when it already is, which leaves it
`True` either way), and then the override *unconditionally* calls
`publisher.on_live_feed_subscribe()`. -/
def liveFeedStartNotify (s : PublisherState) : PublisherState :=
  on_live_feed_subscribe { s with live_notifying := true }

/-- `LiveFeedCharacteristic.StopNotify`: the base class clears the flag and
the override calls `publisher.on_live_feed_unsubscribe()`. -/
def liveFeedStopNotify (s : PublisherState) : PublisherState :=
  on_live_feed_unsubscribe { s with live_notifying := false }

/-- A subscribe or unsubscribe transport event on the live-feed endpoint. -/
inductive SubEvent where
  | subscribe : SubEvent
  | unsubscribe : SubEvent
deriving DecidableEq, Repr

/-- Apply a sequence of transport events to the publisher. -/
def applyEvents (s : PublisherState) : List SubEvent → PublisherState
  | [] => s
  | e :: es =>
    applyEvents (match e with
      | .subscribe => liveFeedStartNotify s
      | .unsubscribe => liveFeedStopNotify s) es

/-- Outcome of `queue.Queue.put(item)` on a bounded queue, as observed by the
producer at the moment of the call: either the item is appended, or the
queue is at capacity and the call blocks the producer until a consumer
frees a slot. -/
inductive PutOutcome (α : Type) where
  | accepted : List α → PutOutcome α
  | blocksProducer : PutOutcome α
deriving DecidableEq, Repr

/-- The deferred-notification queue is `Queue(maxsize=1000)`
(`BLEGATTPublisher.__init__`), and `_poll_loop` pushes deferred sightings
with the blocking `self._queue.put(...)`: an item is appended while fewer
than 1000 items are queued, otherwise the call blocks. -/
def queue_put {α : Type} (q : List α) (x : α) : PutOutcome α :=
  if q.length < 1000 then .accepted (q ++ [x]) else .blocksProducer

/-- `BulkRequest` (`ble_protocol.py`): time range plus type selector
(0 = both, 1 = BT only, 2 = WiFi only). -/
structure BulkRequest where
  ts_start : Nat
  ts_end : Nat
  sighting_type : Nat
deriving DecidableEq, Repr

/-- `BulkChunk` (`ble_protocol.py`). -/
structure BulkChunk where
  chunk_id : Nat
  total_chunks : Nat
  data : List Nat
deriving DecidableEq, Repr

/-- `encode_bulk_chunk`: `struct.pack("<HH", chunk_id, total_chunks)` header
followed by the raw payload.  `none` where Python's `struct.pack` raises. -/
def encode_bulk_chunk (c : BulkChunk) : Option (List Nat) := do
  let idB ← packU16 c.chunk_id
  let totB ← packU16 c.total_chunks
  some (idB ++ totB ++ c.data)

/-- `decode_bulk_chunk`: 4-byte header then payload; fewer than 4 bytes is an
error. -/
def decode_bulk_chunk (data : List Nat) : Except DecodeError BulkChunk :=
  if data.length < 4 then .error .packetTooShort
  else .ok { chunk_id := unpackU16 (byteSlice data 0 2)
             total_chunks := unpackU16 (byteSlice data 2 4)
             data := data.drop 4 }

/-- Insert a record into a list sorted by `key`, keeping earlier-inserted
records with an equal key in front. -/
def insertByKey {α : Type} (key : α → Nat) (x : α) : List α → List α
  | [] => [x]
  | y :: ys => if key y ≤ key x then y :: insertByKey key x ys else x :: y :: ys

/-- Sort a list of records ascending by `key` (insertion sort).  Models the
`ORDER BY ts_unix` of the bulk SQL queries; SQLite leaves the relative order
of equal keys unspecified, and this is one concrete stable choice. -/
def sortByKey {α : Type} (key : α → Nat) : List α → List α
  | [] => []
  | x :: xs => insertByKey key x (sortByKey key xs)

/-- The records selected for a bulk response from the stored rows: BT rows
first, then WiFi rows, each restricted to `ts_start ≤ ts_unix ≤ ts_end` and
ordered by timestamp, with the type selector applied as in
`SightingPoller.get_bulk_sightings` (`sighting_type in (0, 1)` for BT,
`(0, 2)` for WiFi). -/
def bulkRecords (bts : List BTSighting) (wifis : List WiFiSighting)
    (ts_start ts_end sighting_type : Nat) : List (BTSighting ⊕ WiFiSighting) :=
  (if sighting_type = 0 ∨ sighting_type = 1 then
    (sortByKey (fun r => r.ts_unix)
      (bts.filter (fun r => ts_start ≤ r.ts_unix && r.ts_unix ≤ ts_end))).map Sum.inl
  else []) ++
  (if sighting_type = 0 ∨ sighting_type = 2 then
    (sortByKey (fun r => r.ts_unix)
      (wifis.filter (fun r => ts_start ≤ r.ts_unix && r.ts_unix ≤ ts_end))).map Sum.inr
  else [])

/-- Encode a run of bulk records, giving the record at position `i` of the
response the bulk-local sequence number `seq0 + i` (the Python loop starts
`seq = 0` and does `seq += 1` after every packet, across the BT batch and
then the WiFi batch). -/
def encodePackets (seq0 : Nat) : List (BTSighting ⊕ WiFiSighting) → Option (List (List Nat))
  | [] => some []
  | r :: rs => do
    let p ← (match r with
      | Sum.inl b => encode_bt_sighting b seq0
      | Sum.inr w => encode_wifi_sighting w seq0)
    let ps ← encodePackets (seq0 + 1) rs
    some (p :: ps)

/-- `SightingPoller.get_bulk_sightings`, over an in-memory store instead of
the SQLite tables: the individually encoded packets of the selected records,
in BT-then-WiFi order, each type time-ascending, sequence numbers 0,1,2,…
across the whole response.  (The Python `except` path that returns a
partial list on a database error is not modelled.) -/
def get_bulk_sightings (bts : List BTSighting) (wifis : List WiFiSighting)
    (ts_start ts_end sighting_type : Nat) : Option (List (List Nat)) :=
  encodePackets 0 (bulkRecords bts wifis ts_start ts_end sighting_type)

/-- `CHUNK_SIZE = 480` in `BLEGATTPublisher.on_bulk_request`. -/
def CHUNK_SIZE : Nat := 480

/-- The chunks built by `on_bulk_request` from the concatenated packet
stream: `total_chunks = ceil(len / 480)`, chunk `i` holding
`total_data[480*i : 480*(i+1)]`. -/
def bulkChunks (total_data : List Nat) : List BulkChunk :=
  (List.range ((total_data.length + CHUNK_SIZE - 1) / CHUNK_SIZE)).map fun i =>
    { chunk_id := i
      total_chunks := (total_data.length + CHUNK_SIZE - 1) / CHUNK_SIZE
      data := (total_data.drop (CHUNK_SIZE * i)).take CHUNK_SIZE }

/-- `BLEGATTPublisher.on_bulk_request`, reduced to its data flow: fetch and
encode the matching records; when nothing matches, emit the single marker
chunk `(0, 0, b"")`; otherwise join the packets and emit the encoded 480-byte
chunks in index order.  The result is the list of notification payloads sent
on the bulk characteristic. -/
def on_bulk_request (bts : List BTSighting) (wifis : List WiFiSighting)
    (req : BulkRequest) : Option (List (List Nat)) := do
  let packets ← get_bulk_sightings bts wifis req.ts_start req.ts_end req.sighting_type
  if packets = [] then
    let c ← encode_bulk_chunk { chunk_id := 0, total_chunks := 0, data := [] }
    some [c]
  else
    (bulkChunks packets.flatten).mapM encode_bulk_chunk

/-- The code points of the canonical MAC string `"AA:BB:CC:DD:EE:FF"`. -/
def exAddr : List Nat :=
  [65, 65, 58, 66, 66, 58, 67, 67, 58, 68, 68, 58, 69, 69, 58, 70, 70]

/-- The concrete BT sighting of the spec's test scenario: ts 1700000000,
lat 51.5 (scaled 515000000), lon −0.09 (scaled −900000), RSSI −67, name
`"SAR-Beacon"`, no manufacturer, no TX power. -/
def exBt : BTSighting :=
  { addr := exAddr
    ts_unix := 1700000000
    ts_gps := none
    lat := some 515000000
    lon := some (-900000)
    rssi := some (-67)
    local_name := some [83, 65, 82, 45, 66, 101, 97, 99, 111, 110]
    manufacturer := none
    manufacturer_hex := none
    tx_power := none }

/-- A BT sighting with every optional field `None`. -/
def exBtNone : BTSighting :=
  { addr := exAddr
    ts_unix := 0
    ts_gps := none
    lat := none
    lon := none
    rssi := none
    local_name := none
    manufacturer := none
    manufacturer_hex := none
    tx_power := none }

/-- A BT sighting whose advertised name is 40 copies of `'ą'` (U+0105, a
two-byte UTF-8 character). -/
def exBtFat : BTSighting :=
  { exBtNone with local_name := some (List.replicate 40 261) }

/-- A concrete WiFi sighting with SSID `"Net"` and RSSI −60. -/
def exWifi : WiFiSighting :=
  { mac := exAddr
    ts_unix := 1700000000
    ts_gps := none
    lat := none
    lon := none
    ssid := [78, 101, 116]
    rssi := some (-60) }

theorem unpackU16_packU16 (n : Nat) (h : n < 65536) :
    packU16 n = some [n % 256, n / 256] ∧ unpackU16 [n % 256, n / 256] = n := by
  constructor
  · simp [packU16, h]
  · simp only [unpackU16]
    omega

theorem unpackU32_u32Bytes (n : Nat) (_h : n < 4294967296) :
    unpackU32 (u32Bytes n) = n := by
  simp only [unpackU32, u32Bytes]
  omega

theorem unpackI32_i32Bytes (v : Int) (h1 : -2147483648 ≤ v) (h2 : v < 2147483648) :
    unpackI32 (i32Bytes v) = v := by
  simp only [unpackI32, i32Bytes, u32Bytes, unpackU32]
  omega

theorem unpackI8_i8Byte (v : Int) (h1 : -128 ≤ v) (h2 : v < 128) :
    unpackI8 (i8Byte v) = v := by
  simp only [unpackI8, i8Byte]
  omega

theorem utf8EncodeChar_ne_nil (c : Nat) : utf8EncodeChar c ≠ [] := by
  unfold utf8EncodeChar
  by_cases h1 : c < 128
  · simp [h1]
  · by_cases h2 : c < 2048
    · simp [h1, h2]
    · by_cases h3 : c < 65536
      · simp [h1, h2, h3]
      · simp [h1, h2, h3]

theorem utf8EncodeStr_eq_nil_iff (s : List Nat) : utf8EncodeStr s = [] ↔ s = [] := by
  cases s with
  | nil => simp [utf8EncodeStr]
  | cons c t =>
    simp only [utf8EncodeStr, List.map_cons, List.flatten_cons]
    constructor
    · intro h
      exact absurd (List.append_eq_nil.mp h).1 (utf8EncodeChar_ne_nil c)
    · intro h
      exact absurd h (by simp)

theorem utf8DecodeOne_encodeChar (c : Nat) (h : isScalar c) (tl : List Nat) :
    utf8DecodeOne (utf8EncodeChar c ++ tl) = some (c, tl) := by
  obtain ⟨hlt, hsur⟩ := h
  by_cases h1 : c < 128
  · simp only [utf8EncodeChar, if_pos h1, List.cons_append, List.nil_append]
    simp only [utf8DecodeOne, List.getD_cons_zero, List.getD_cons_succ, List.length_cons,
      List.drop_succ_cons, List.drop_zero]
    rw [if_neg (by omega), if_pos h1]
  · by_cases h2 : c < 2048
    · simp only [utf8EncodeChar, if_neg h1, if_pos h2, List.cons_append, List.nil_append]
      simp only [utf8DecodeOne, List.getD_cons_zero, List.getD_cons_succ, List.length_cons,
        List.drop_succ_cons, List.drop_zero]
      rw [if_neg (by omega), if_neg (by omega), if_neg (by omega), if_pos (by omega),
        if_pos (by omega)]
      have hv : (192 + c / 64 - 192) * 64 + (128 + c % 64 - 128) = c := by omega
      rw [hv]
    · by_cases h3 : c < 65536
      · simp only [utf8EncodeChar, if_neg h1, if_neg h2, if_pos h3, List.cons_append,
          List.nil_append]
        simp only [utf8DecodeOne, List.getD_cons_zero, List.getD_cons_succ, List.length_cons,
          List.drop_succ_cons, List.drop_zero]
        rw [if_neg (by omega), if_neg (by omega), if_neg (by omega), if_neg (by omega),
          if_pos (by omega), if_pos (by omega)]
        have hc : (224 + c / 4096 - 224) * 4096 + (128 + c / 64 % 64 - 128) * 64 +
            (128 + c % 64 - 128) = c := by omega
        rw [hc]
      · simp only [utf8EncodeChar, if_neg h1, if_neg h2, if_neg h3, List.cons_append,
          List.nil_append]
        simp only [utf8DecodeOne, List.getD_cons_zero, List.getD_cons_succ, List.length_cons,
          List.drop_succ_cons, List.drop_zero]
        rw [if_neg (by omega), if_neg (by omega), if_neg (by omega), if_neg (by omega),
          if_neg (by omega), if_pos (by omega), if_pos (by omega)]
        have hc : (240 + c / 262144 - 240) * 262144 + (128 + c / 4096 % 64 - 128) * 4096 +
            (128 + c / 64 % 64 - 128) * 64 + (128 + c % 64 - 128) = c := by omega
        rw [hc]

theorem length_le_utf8EncodeStr (s : List Nat) : s.length ≤ (utf8EncodeStr s).length := by
  induction s with
  | nil => simp [utf8EncodeStr]
  | cons c t ih =>
    simp only [utf8EncodeStr, List.map_cons, List.flatten_cons, List.length_append,
      List.length_cons]
    have hpos : 0 < (utf8EncodeChar c).length :=
      List.length_pos.mpr (utf8EncodeChar_ne_nil c)
    simp only [utf8EncodeStr] at ih
    omega

theorem utf8DecodeFuel_encodeStr (s : List Nat) (hs : ∀ c ∈ s, isScalar c) :
    ∀ fuel, s.length ≤ fuel → utf8DecodeFuel fuel (utf8EncodeStr s) = some s := by
  induction s with
  | nil =>
    intro fuel _
    cases fuel <;> simp [utf8DecodeFuel, utf8EncodeStr]
  | cons c t ih =>
    intro fuel hf
    cases fuel with
    | zero => simp at hf
    | succ f =>
      have hc : isScalar c := hs c (by simp)
      have ht : ∀ x ∈ t, isScalar x := fun x hx => hs x (by simp [hx])
      have hsplit : utf8EncodeStr (c :: t) = utf8EncodeChar c ++ utf8EncodeStr t := by
        simp [utf8EncodeStr]
      rw [hsplit]
      have hne : utf8EncodeChar c ++ utf8EncodeStr t ≠ [] := by
        intro hh
        exact utf8EncodeChar_ne_nil c (List.append_eq_nil.mp hh).1
      simp only [utf8DecodeFuel, if_neg hne]
      rw [utf8DecodeOne_encodeChar c hc]
      dsimp only
      have hft : t.length ≤ f := by
        simp only [List.length_cons] at hf
        omega
      rw [ih ht f hft]
      rfl

theorem utf8Decode_utf8EncodeStr (s : List Nat) (h : ∀ c ∈ s, isScalar c) :
    utf8Decode (utf8EncodeStr s) = some s :=
  utf8DecodeFuel_encodeStr s h (utf8EncodeStr s).length (length_le_utf8EncodeStr s)

theorem coordInt_bounds (o : Option Int)
    (h : ∀ v ∈ o, -2147483648 ≤ v ∧ v < 2147483648 ∧ v ≠ 2147483647) :
    -2147483648 ≤ coordInt o ∧ coordInt o < 2147483648 := by
  cases o with
  | none => simp [coordInt]
  | some v =>
    have := h v rfl
    simp only [coordInt]
    exact ⟨this.1, this.2.1⟩

theorem rssiInt_bounds (o : Option Int) (h : ∀ v ∈ o, -128 ≤ v ∧ v < 128) :
    -128 ≤ rssiInt o ∧ rssiInt o < 128 := by
  cases o with
  | none => simp [rssiInt]
  | some v => simpa [rssiInt] using h v rfl

theorem txPowerInt_bounds (o : Option Int) (h : ∀ v ∈ o, -128 ≤ v ∧ v < 128) :
    -128 ≤ txPowerInt o ∧ txPowerInt o < 128 := by
  cases o with
  | none => simp [txPowerInt]
  | some v => simpa [txPowerInt] using h v rfl

theorem encode_bt_shape (x : BTSighting) (seq_num : Nat) (macB : List Nat)
    (hmac : encode_mac x.addr = some macB)
    (hseq : seq_num < 65536) (hts : x.ts_unix < 4294967296)
    (hlat : -2147483648 ≤ coordInt x.lat ∧ coordInt x.lat < 2147483648)
    (hlon : -2147483648 ≤ coordInt x.lon ∧ coordInt x.lon < 2147483648)
    (hrssi : -128 ≤ rssiInt x.rssi ∧ rssiInt x.rssi < 128)
    (htx : -128 ≤ txPowerInt x.tx_power ∧ txPowerInt x.tx_power < 128) :
    encode_bt_sighting x seq_num = some
      (1 :: seq_num % 256 :: seq_num / 256 :: macB ++ u32Bytes x.ts_unix ++
        i32Bytes (coordInt x.lat) ++ i32Bytes (coordInt x.lon) ++
        i8Byte (rssiInt x.rssi) :: i8Byte (txPowerInt x.tx_power) ::
        ((if btNameBytes x ≠ [] then 1 else 0) + (if btMfrBytes x ≠ [] then 2 else 0)) ::
        (btNameBytes x).length :: (btMfrBytes x).length ::
        (btNameBytes x ++ btMfrBytes x)) := by
  simp only [encode_bt_sighting, encode_lat_lon, packI32, packU16, packU32, packI8,
    if_pos hlat, if_pos hlon, if_pos hrssi, if_pos htx, if_pos hseq, if_pos hts, hmac,
    Option.bind_eq_bind, Option.some_bind, Option.some.injEq]
  simp [List.cons_append, List.append_assoc]

theorem encode_wifi_shape (y : WiFiSighting) (seq_num : Nat) (macB : List Nat)
    (hmac : encode_mac y.mac = some macB)
    (hseq : seq_num < 65536) (hts : y.ts_unix < 4294967296)
    (hlat : -2147483648 ≤ coordInt y.lat ∧ coordInt y.lat < 2147483648)
    (hlon : -2147483648 ≤ coordInt y.lon ∧ coordInt y.lon < 2147483648)
    (hrssi : -128 ≤ rssiInt y.rssi ∧ rssiInt y.rssi < 128) :
    encode_wifi_sighting y seq_num = some
      (2 :: seq_num % 256 :: seq_num / 256 :: macB ++ u32Bytes y.ts_unix ++
        i32Bytes (coordInt y.lat) ++ i32Bytes (coordInt y.lon) ++
        i8Byte (rssiInt y.rssi) :: (wifiSsidBytes y).length :: wifiSsidBytes y) := by
  simp only [encode_wifi_sighting, encode_lat_lon, packI32, packU16, packU32, packI8,
    if_pos hlat, if_pos hlon, if_pos hrssi, if_pos hseq, if_pos hts, hmac,
    Option.bind_eq_bind, Option.some_bind, Option.some.injEq]
  simp [List.cons_append, List.append_assoc]

theorem utf8EncodeChar_length_le (c : Nat) : (utf8EncodeChar c).length ≤ 4 := by
  unfold utf8EncodeChar
  split <;> simp_all
  split <;> simp_all
  split <;> simp_all

theorem utf8EncodeStr_length_le (s : List Nat) : (utf8EncodeStr s).length ≤ 4 * s.length := by
  induction s with
  | nil => simp [utf8EncodeStr]
  | cons c t ih =>
    simp only [utf8EncodeStr, List.map_cons, List.flatten_cons, List.length_append,
      List.length_cons]
    have := utf8EncodeChar_length_le c
    have : (utf8EncodeStr t).length ≤ 4 * t.length := ih
    simp only [utf8EncodeStr] at this
    omega

theorem utf8EncodeStr_length_ascii (s : List Nat) (h : ∀ c ∈ s, c < 128) :
    (utf8EncodeStr s).length = s.length := by
  induction s with
  | nil => simp [utf8EncodeStr]
  | cons c t ih =>
    have hc : c < 128 := h c (by simp)
    have ht : ∀ x ∈ t, x < 128 := fun x hx => h x (by simp [hx])
    simp only [utf8EncodeStr, List.map_cons, List.flatten_cons, List.length_append]
    rw [show utf8EncodeChar c = [c] by simp [utf8EncodeChar, hc]]
    have hlen := ih ht
    simp only [utf8EncodeStr] at hlen
    simp only [List.length_cons, List.length_nil, hlen]
    omega

theorem decode_bt_of_shape (s0 s1 m0 m1 m2 m3 m4 m5 t0 t1 t2 t3 a0 a1 a2 a3
    o0 o1 o2 o3 rB xB fl : Nat) (nameB mfrB nameS mfrS : List Nat)
    (hne : ¬(nameB = [] ∧ mfrB = []))
    (hnd : utf8Decode nameB = some nameS) (hmd : utf8Decode mfrB = some mfrS) :
    decode_bt_sighting (1 :: s0 :: s1 :: m0 :: m1 :: m2 :: m3 :: m4 :: m5 ::
      t0 :: t1 :: t2 :: t3 :: a0 :: a1 :: a2 :: a3 :: o0 :: o1 :: o2 :: o3 ::
      rB :: xB :: fl :: nameB.length :: mfrB.length :: (nameB ++ mfrB)) =
    Except.ok
      ({ addr := decode_mac [m0, m1, m2, m3, m4, m5]
         ts_unix := unpackU32 [t0, t1, t2, t3]
         ts_gps := none
         lat := (decode_lat_lon [a0, a1, a2, a3] [o0, o1, o2, o3]).1
         lon := (decode_lat_lon [a0, a1, a2, a3] [o0, o1, o2, o3]).2
         rssi := if unpackI8 rB = -128 then none else some (unpackI8 rB)
         local_name := if nameB = [] then none else some nameS
         manufacturer := if mfrB = [] then none else some mfrS
         manufacturer_hex := none
         tx_power := if unpackI8 xB = 127 then none else some (unpackI8 xB) },
       unpackU16 [s0, s1]) := by
  have hlen : ¬((1 :: s0 :: s1 :: m0 :: m1 :: m2 :: m3 :: m4 :: m5 ::
      t0 :: t1 :: t2 :: t3 :: a0 :: a1 :: a2 :: a3 :: o0 :: o1 :: o2 :: o3 ::
      rB :: xB :: fl :: nameB.length :: mfrB.length :: (nameB ++ mfrB)).length < 27) := by
    simp only [List.length_cons, List.length_append]
    rcases (not_and_or.mp hne) with h | h
    · have := List.length_pos.mpr h
      omega
    · have := List.length_pos.mpr h
      omega
  rw [decode_bt_sighting]
  rw [if_neg hlen]
  simp only [List.getD_cons_zero, List.getD_cons_succ]
  rw [if_neg (by omega : ¬(1 ≠ 1))]
  simp only [byteSlice, List.drop_succ_cons, List.drop_zero, List.take_succ_cons,
    List.take_zero, Nat.add_sub_cancel_left]
  rw [← List.drop_drop nameB.length 26]
  simp only [List.drop_succ_cons, List.drop_zero, List.take_left, List.drop_left,
    List.take_length]
  by_cases hn : nameB = []
  · by_cases hm : mfrB = []
    · exact absurd ⟨hn, hm⟩ hne
    · have hn0 : nameB.length = 0 := by simp [hn]
      have hm0 : 0 < mfrB.length := List.length_pos.mpr hm
      rw [if_neg (by omega : ¬(nameB.length > 0))]
      simp only [pure_bind]
      rw [if_pos (by omega : mfrB.length > 0), hmd]
      simp [hn, hm, pure_bind]
      rfl
  · have hn0 : 0 < nameB.length := List.length_pos.mpr hn
    rw [if_pos (by omega : nameB.length > 0), hnd]
    by_cases hm : mfrB = []
    · have hm0 : mfrB.length = 0 := by simp [hm]
      simp only [pure_bind]
      rw [if_neg (by omega : ¬(mfrB.length > 0))]
      simp [hn, hm, pure_bind]
      rfl
    · have hm0 : 0 < mfrB.length := List.length_pos.mpr hm
      simp only [pure_bind]
      rw [if_pos (by omega : mfrB.length > 0), hmd]
      simp [hn, hm, pure_bind]
      rfl

theorem decode_wifi_of_shape (s0 s1 m0 m1 m2 m3 m4 m5 t0 t1 t2 t3 a0 a1 a2 a3
    o0 o1 o2 o3 rB : Nat) (ssidB ssidS : List Nat)
    (hne : ssidB ≠ []) (hsd : utf8Decode ssidB = some ssidS) :
    decode_wifi_sighting (2 :: s0 :: s1 :: m0 :: m1 :: m2 :: m3 :: m4 :: m5 ::
      t0 :: t1 :: t2 :: t3 :: a0 :: a1 :: a2 :: a3 :: o0 :: o1 :: o2 :: o3 ::
      rB :: ssidB.length :: ssidB) =
    Except.ok
      ({ mac := decode_mac [m0, m1, m2, m3, m4, m5]
         ts_unix := unpackU32 [t0, t1, t2, t3]
         ts_gps := none
         lat := (decode_lat_lon [a0, a1, a2, a3] [o0, o1, o2, o3]).1
         lon := (decode_lat_lon [a0, a1, a2, a3] [o0, o1, o2, o3]).2
         ssid := ssidS
         rssi := if unpackI8 rB = -128 then none else some (unpackI8 rB) },
       unpackU16 [s0, s1]) := by
  have hpos : 0 < ssidB.length := List.length_pos.mpr hne
  have hlen : ¬((2 :: s0 :: s1 :: m0 :: m1 :: m2 :: m3 :: m4 :: m5 ::
      t0 :: t1 :: t2 :: t3 :: a0 :: a1 :: a2 :: a3 :: o0 :: o1 :: o2 :: o3 ::
      rB :: ssidB.length :: ssidB).length < 24) := by
    simp only [List.length_cons]
    omega
  rw [decode_wifi_sighting]
  rw [if_neg hlen]
  simp only [List.getD_cons_zero, List.getD_cons_succ]
  rw [if_neg (by omega : ¬(2 ≠ 2))]
  simp only [byteSlice, List.drop_succ_cons, List.drop_zero, List.take_succ_cons,
    List.take_zero, Nat.add_sub_cancel_left, List.take_length]
  rw [if_pos (by omega : ssidB.length > 0), hsd]
  simp [pure_bind]
  rfl

theorem bt_round_trip (x : BTSighting) (seq_num : Nat) (hv : btValid x seq_num)
    (hne : ¬(btNameBytes x = [] ∧ btMfrBytes x = [])) :
    (encode_bt_sighting x seq_num).map decode_bt_sighting =
      some (Except.ok (normalizeBt x, seq_num)) := by
  obtain ⟨hseq, hts, ⟨macB, hmac, hlen6, hdecmac⟩, hlat, hlon, hrssi, htx, hname, hmfr⟩ := hv
  have hnameScal : ∀ c ∈ (pyOr x.local_name).take 32, isScalar c := by
    intro c hc
    have hc' : c ∈ pyOr x.local_name := List.take_subset _ _ hc
    cases hx : x.local_name with
    | none => rw [hx] at hc'; simp [pyOr] at hc'
    | some s =>
      refine hname s (by rw [hx]; rfl) c ?_
      rw [hx] at hc'
      simpa [pyOr] using hc'
  have hmfrScal : ∀ c ∈ (pyOr x.manufacturer).take 20, isScalar c := by
    intro c hc
    have hc' : c ∈ pyOr x.manufacturer := List.take_subset _ _ hc
    cases hx : x.manufacturer with
    | none => rw [hx] at hc'; simp [pyOr] at hc'
    | some s =>
      refine hmfr s (by rw [hx]; rfl) c ?_
      rw [hx] at hc'
      simpa [pyOr] using hc'
  have hnd : utf8Decode (btNameBytes x) = some ((pyOr x.local_name).take 32) :=
    utf8Decode_utf8EncodeStr _ hnameScal
  have hmd : utf8Decode (btMfrBytes x) = some ((pyOr x.manufacturer).take 20) :=
    utf8Decode_utf8EncodeStr _ hmfrScal
  rw [encode_bt_shape x seq_num macB hmac hseq hts (coordInt_bounds _ hlat)
    (coordInt_bounds _ hlon) (rssiInt_bounds _ hrssi) (txPowerInt_bounds _ htx)]
  rcases macB with _ | ⟨m0, _ | ⟨m1, _ | ⟨m2, _ | ⟨m3, _ | ⟨m4, _ | ⟨m5, _ | ⟨m6, mrest⟩⟩⟩⟩⟩⟩⟩ <;>
    simp only [List.length_cons, List.length_nil] at hlen6 <;>
    try (exfalso; omega)
  rw [Option.map_some']
  refine congrArg some ?_
  simp only [u32Bytes, i32Bytes, List.cons_append, List.nil_append]
  rw [decode_bt_of_shape _ _ _ _ _ _ _ _ _ _ _ _ _ _ _ _ _ _ _ _ _ _ _
    (btNameBytes x) (btMfrBytes x) _ _ hne hnd hmd]
  refine congrArg Except.ok ?_
  have hseqEq : unpackU16 [seq_num % 256, seq_num / 256] = seq_num := by
    simp only [unpackU16]
    omega
  refine Prod.ext ?_ hseqEq
  have hlatEq : unpackI32 (u32Bytes ((coordInt x.lat % 4294967296).toNat)) =
      coordInt x.lat :=
    unpackI32_i32Bytes _ (coordInt_bounds _ hlat).1 (coordInt_bounds _ hlat).2
  have hlonEq : unpackI32 (u32Bytes ((coordInt x.lon % 4294967296).toNat)) =
      coordInt x.lon :=
    unpackI32_i32Bytes _ (coordInt_bounds _ hlon).1 (coordInt_bounds _ hlon).2
  have hrssiEq : unpackI8 (i8Byte (rssiInt x.rssi)) = rssiInt x.rssi :=
    unpackI8_i8Byte _ (rssiInt_bounds _ hrssi).1 (rssiInt_bounds _ hrssi).2
  have htxEq : unpackI8 (i8Byte (txPowerInt x.tx_power)) = txPowerInt x.tx_power :=
    unpackI8_i8Byte _ (txPowerInt_bounds _ htx).1 (txPowerInt_bounds _ htx).2
  simp only [u32Bytes] at hlatEq hlonEq
  simp only [normalizeBt, BTSighting.mk.injEq]
  refine ⟨hdecmac, unpackU32_u32Bytes _ hts, trivial, ?_, ?_, ?_, ?_, ?_, trivial, ?_⟩
  · simp only [decode_lat_lon, hlatEq]
    cases hx : x.lat with
    | none => simp [coordInt]
    | some v =>
      have hvv := hlat v (by rw [hx]; rfl)
      simp [coordInt, hvv.2.2]
  · simp only [decode_lat_lon, hlonEq]
    cases hx : x.lon with
    | none => simp [coordInt]
    | some v =>
      have hvv := hlon v (by rw [hx]; rfl)
      simp [coordInt, hvv.2.2]
  · rw [hrssiEq]
    cases hx : x.rssi with
    | none => simp [rssiInt]
    | some v => simp [rssiInt]
  · simp only [btNameBytes, utf8EncodeStr_eq_nil_iff]
  · simp only [btMfrBytes, utf8EncodeStr_eq_nil_iff]
  · rw [htxEq]
    cases hx : x.tx_power with
    | none => simp [txPowerInt]
    | some v => simp [txPowerInt]

theorem wifi_round_trip (y : WiFiSighting) (seq_num : Nat) (hv : wifiValid y seq_num)
    (hne : wifiSsidBytes y ≠ []) :
    (encode_wifi_sighting y seq_num).map decode_wifi_sighting =
      some (Except.ok (normalizeWifi y, seq_num)) := by
  obtain ⟨hseq, hts, ⟨macB, hmac, hlen6, hdecmac⟩, hlat, hlon, hrssi, hssid⟩ := hv
  have hssidScal : ∀ c ∈ y.ssid.take 32, isScalar c := fun c hc =>
    hssid c (List.take_subset _ _ hc)
  have hsd : utf8Decode (wifiSsidBytes y) = some (y.ssid.take 32) :=
    utf8Decode_utf8EncodeStr _ hssidScal
  rw [encode_wifi_shape y seq_num macB hmac hseq hts (coordInt_bounds _ hlat)
    (coordInt_bounds _ hlon) (rssiInt_bounds _ hrssi)]
  rcases macB with _ | ⟨m0, _ | ⟨m1, _ | ⟨m2, _ | ⟨m3, _ | ⟨m4, _ | ⟨m5, _ | ⟨m6, mrest⟩⟩⟩⟩⟩⟩⟩ <;>
    simp only [List.length_cons, List.length_nil] at hlen6 <;>
    try (exfalso; omega)
  rw [Option.map_some']
  refine congrArg some ?_
  simp only [u32Bytes, i32Bytes, List.cons_append, List.nil_append]
  rw [decode_wifi_of_shape _ _ _ _ _ _ _ _ _ _ _ _ _ _ _ _ _ _ _ _ _
    (wifiSsidBytes y) _ hne hsd]
  refine congrArg Except.ok ?_
  have hseqEq : unpackU16 [seq_num % 256, seq_num / 256] = seq_num := by
    simp only [unpackU16]
    omega
  refine Prod.ext ?_ hseqEq
  have hlatEq : unpackI32 (u32Bytes ((coordInt y.lat % 4294967296).toNat)) =
      coordInt y.lat :=
    unpackI32_i32Bytes _ (coordInt_bounds _ hlat).1 (coordInt_bounds _ hlat).2
  have hlonEq : unpackI32 (u32Bytes ((coordInt y.lon % 4294967296).toNat)) =
      coordInt y.lon :=
    unpackI32_i32Bytes _ (coordInt_bounds _ hlon).1 (coordInt_bounds _ hlon).2
  have hrssiEq : unpackI8 (i8Byte (rssiInt y.rssi)) = rssiInt y.rssi :=
    unpackI8_i8Byte _ (rssiInt_bounds _ hrssi).1 (rssiInt_bounds _ hrssi).2
  simp only [u32Bytes] at hlatEq hlonEq
  simp only [normalizeWifi, WiFiSighting.mk.injEq]
  refine ⟨hdecmac, unpackU32_u32Bytes _ hts, trivial, ?_, ?_, trivial, ?_⟩
  · simp only [decode_lat_lon, hlatEq]
    cases hx : y.lat with
    | none => simp [coordInt]
    | some v =>
      have hvv := hlat v (by rw [hx]; rfl)
      simp [coordInt, hvv.2.2]
  · simp only [decode_lat_lon, hlonEq]
    cases hx : y.lon with
    | none => simp [coordInt]
    | some v =>
      have hvv := hlon v (by rw [hx]; rfl)
      simp [coordInt, hvv.2.2]
  · rw [hrssiEq]
    cases hx : y.rssi with
    | none => simp [rssiInt]
    | some v => simp [rssiInt]

theorem sendSeqs_shift (kinds : List Bool) : ∀ s : PublisherState,
    sendSeqs s kinds = (List.range kinds.length).map
      (fun k => (s.seq_num + k + 1) % 65536) := by
  induction kinds with
  | nil => intro s; simp [sendSeqs]
  | cons k ks ih =>
    intro s
    simp only [sendSeqs, nextSeq, List.length_cons, List.range_succ_eq_map,
      List.map_cons, List.map_map, List.cons.injEq]
    refine ⟨trivial, ?_⟩
    rw [ih]
    refine List.map_congr_left ?_
    intro a _
    simp only [Function.comp]
    omega

theorem mapM_option_of_pointwise {α β : Type} (f : α → Option β) (g : α → β) :
    ∀ l : List α, (∀ a ∈ l, f a = some (g a)) → l.mapM f = some (l.map g) := by
  intro l
  induction l with
  | nil => intro _; rfl
  | cons a as ih =>
    intro h
    rw [List.mapM_cons, h a (by simp), ih (fun b hb => h b (by simp [hb]))]
    rfl

theorem mapM_except_of_pointwise {α β ε : Type} (f : α → Except ε β) (g : α → β) :
    ∀ l : List α, (∀ a ∈ l, f a = Except.ok (g a)) → l.mapM f = Except.ok (l.map g) := by
  intro l
  induction l with
  | nil => intro _; rfl
  | cons a as ih =>
    intro h
    rw [List.mapM_cons, h a (by simp), ih (fun b hb => h b (by simp [hb]))]
    rfl

theorem flatten_chunk_slices : ∀ (n : Nat) (d : List Nat), d.length ≤ 480 * n →
    ((List.range n).map (fun i => (d.drop (480 * i)).take 480)).flatten = d := by
  intro n
  induction n with
  | zero =>
    intro d hd
    simp only [Nat.mul_zero, Nat.le_zero] at hd
    simp [List.eq_nil_of_length_eq_zero hd]
  | succ n ih =>
    intro d hd
    rw [List.range_succ_eq_map, List.map_cons, List.map_map, List.flatten_cons]
    have hmap : (List.range n).map ((fun i => (d.drop (480 * i)).take 480) ∘ Nat.succ) =
        (List.range n).map (fun i => ((d.drop 480).drop (480 * i)).take 480) := by
      refine List.map_congr_left ?_
      intro i _
      simp only [Function.comp]
      rw [List.drop_drop]
      have h48 : 480 + 480 * i = 480 * i.succ := by omega
      rw [h48]
    rw [hmap, ih (d.drop 480) (by simp only [List.length_drop]; omega)]
    simp [List.take_append_drop]

theorem encode_bulk_chunk_eq (c : BulkChunk) (hid : c.chunk_id < 65536)
    (htot : c.total_chunks < 65536) :
    encode_bulk_chunk c = some (c.chunk_id % 256 :: c.chunk_id / 256 ::
      c.total_chunks % 256 :: c.total_chunks / 256 :: c.data) := by
  simp only [encode_bulk_chunk, packU16, if_pos hid, if_pos htot,
    Option.bind_eq_bind, Option.some_bind]
  simp

theorem decode_encode_bulk_chunk (c : BulkChunk) :
    decode_bulk_chunk (c.chunk_id % 256 :: c.chunk_id / 256 ::
      c.total_chunks % 256 :: c.total_chunks / 256 :: c.data) = Except.ok c := by
  rw [decode_bulk_chunk]
  rw [if_neg (by simp only [List.length_cons]; omega)]
  simp only [byteSlice, List.drop_succ_cons, List.drop_zero, List.take_succ_cons,
    List.take_zero]
  refine congrArg Except.ok ?_
  have h1 : unpackU16 [c.chunk_id % 256, c.chunk_id / 256] = c.chunk_id := by
    simp only [unpackU16]; omega
  have h2 : unpackU16 [c.total_chunks % 256, c.total_chunks / 256] = c.total_chunks := by
    simp only [unpackU16]; omega
  simp [h1, h2]

theorem subscribers_nonneg_aux : ∀ (evs : List SubEvent) (s : PublisherState),
    0 ≤ s.subscribers → 0 ≤ (applyEvents s evs).subscribers := by
  intro evs
  induction evs with
  | nil => intro s hs; exact hs
  | cons e es ih =>
    intro s hs
    cases e with
    | subscribe =>
      exact ih _ (by simp only [liveFeedStartNotify, on_live_feed_subscribe]; omega)
    | unsubscribe =>
      exact ih _ (by
        simp only [liveFeedStopNotify, on_live_feed_unsubscribe]
        exact le_max_left 0 _)

/-- C1 (counterexample): the claim's round trip fails for a valid BT sighting
whose optional name and manufacturer are both `None`: the encoder emits a
26-byte packet and `decode_bt_sighting` rejects anything under 27 bytes, so
decoding the encoding raises instead of returning the sighting. -/
theorem C1_counterexample :
    (encode_bt_sighting exBtNone 0).map decode_bt_sighting =
      some (Except.error DecodeError.packetTooShort) ∧
    some (Except.error DecodeError.packetTooShort) ≠
      some (Except.ok (normalizeBt exBtNone, 0)) := by
  constructor
  · rfl
  · intro h
    exact Except.noConfusion (Option.some.inj h)

/-- C1 (amended): for every valid BT and WiFi sighting and every seq in
0..65535, decoding the encoding returns the sighting — with the documented
truncation to 32/20 characters, the MAC re-rendered canonically, and the
sentinel substitutions (RSSI −128, TX power 127, lat/lon 0x7FFFFFFF, empty
strings to `None`) — together with the same seq, *provided* the encoded
packet carries at least one trailer byte: a BT sighting needs a non-empty
name or manufacturer and a WiFi sighting a non-empty SSID, because the
26-byte (resp. 23-byte) trailerless packet is rejected by the decoder's
27-byte (resp. 24-byte) minimum. -/
theorem C1_round_trip (x : BTSighting) (y : WiFiSighting) (s1 s2 : Nat)
    (hx : btValid x s1) (hy : wifiValid y s2)
    (hxne : ¬(btNameBytes x = [] ∧ btMfrBytes x = []))
    (hyne : wifiSsidBytes y ≠ []) :
    (encode_bt_sighting x s1).map decode_bt_sighting =
      some (Except.ok (normalizeBt x, s1)) ∧
    (encode_wifi_sighting y s2).map decode_wifi_sighting =
      some (Except.ok (normalizeWifi y, s2)) :=
  ⟨bt_round_trip x s1 hx hxne, wifi_round_trip y s2 hy hyne⟩

/-- C1 (witness): the spec's concrete scenario round-trips: the `exBt`
sighting at seq 42 and the `exWifi` sighting at seq 7. -/
theorem C1_witness :
    (encode_bt_sighting exBt 42).map decode_bt_sighting =
      some (Except.ok (normalizeBt exBt, 42)) ∧
    (encode_wifi_sighting exWifi 7).map decode_wifi_sighting =
      some (Except.ok (normalizeWifi exWifi, 7)) :=
  C1_round_trip exBt exWifi 42 7
    ⟨by decide, by decide, ⟨[170, 187, 204, 221, 238, 255], by decide⟩,
      by decide, by decide, by decide, by decide, by decide, by decide⟩
    ⟨by decide, by decide, ⟨[170, 187, 204, 221, 238, 255], by decide⟩,
      by decide, by decide, by decide, by decide⟩
    (by decide) (by decide)

/-- C3 (counterexample): the very first live notification from a freshly
constructed publisher carries sequence number 1, not 0: `_seq_num` starts at
0 and `_send_bt_notification` increments it *before* encoding. -/
theorem C3_counterexample :
    sendSeqs initPublisher [true] ≠ [0] ∧ sendSeqs initPublisher [true] = [1] := by
  decide

/-- C3 (amended): for any interleaving of BT and WiFi live notifications from
a freshly constructed publisher, the k-th emission (0-indexed) carries
sequence number `(k+1) % 65536` — a single unsigned 16-bit counter shared by
both notification kinds, incremented by exactly one per live notification,
wrapping from 65535 to 0.  So 65536 consecutive emissions carry
1, 2, …, 65535, 0 with no skip, rather than the claimed 0, …, 65535. -/
theorem C3_sequence_numbers (kinds : List Bool) :
    sendSeqs initPublisher kinds =
      (List.range kinds.length).map (fun k => (k + 1) % 65536) := by
  rw [sendSeqs_shift]
  refine List.map_congr_left ?_
  intro a _
  simp [initPublisher]

/-- C4 (counterexample): subscribing twice is observably different from
subscribing once: the re-entrant `StartNotify` leaves the endpoint's
`notifying` flag unchanged but still increments the global subscriber count,
because `LiveFeedCharacteristic.StartNotify` calls
`publisher.on_live_feed_subscribe()` unconditionally after the base class's
early-returning guard. -/
theorem C4_counterexample :
    liveFeedStartNotify (liveFeedStartNotify initPublisher) ≠
      liveFeedStartNotify initPublisher ∧
    (liveFeedStartNotify (liveFeedStartNotify initPublisher)).subscribers = 2 ∧
    (liveFeedStartNotify initPublisher).subscribers = 1 := by
  decide

/-- C4 (amended): a subscribe transport event on an endpoint already in the
Subscribed state leaves the endpoint's subscription flag unchanged (still
`true`) but increments the global subscriber count by one; it is not a
no-op. -/
theorem C4_reentrant_subscribe (s : PublisherState) (h : s.live_notifying = true) :
    liveFeedStartNotify s =
      { s with subscribers := s.subscribers + 1 } := by
  cases s with
  | mk seq subs notif =>
    simp only [liveFeedStartNotify, on_live_feed_subscribe]
    simp at h
    rw [h]

/-- C4 (witness): instantiated at a subscribed publisher with one
subscriber. -/
theorem C4_witness :
    liveFeedStartNotify { seq_num := 0, subscribers := 1, live_notifying := true } =
      { seq_num := 0, subscribers := 2, live_notifying := true } :=
  C4_reentrant_subscribe
    { seq_num := 0, subscribers := 1, live_notifying := true } rfl

set_option maxRecDepth 100000 in
/-- C5 (counterexample): with the deferred-notification queue at its fixed
capacity of 1000, a further put does not drop the newest item and leave the
queue unchanged — it blocks the producer (`queue.Queue.put` with the default
blocking semantics). -/
theorem C5_counterexample :
    queue_put (List.replicate 1000 (0 : Nat)) 7 = PutOutcome.blocksProducer ∧
    queue_put (List.replicate 1000 (0 : Nat)) 7 ≠
      PutOutcome.accepted (List.replicate 1000 (0 : Nat)) := by
  constructor
  · decide
  · decide

/-- C5 (amended): when the bounded deferred-notification queue (fixed
capacity 1000) is full, pushing a further deferred sighting *blocks the
producer* — no item is dropped and nothing is logged; below capacity the
item is appended at the tail, leaving the existing contents unchanged. -/
theorem C5_queue_put {α : Type} (q : List α) (x : α) :
    (1000 ≤ q.length → queue_put q x = PutOutcome.blocksProducer) ∧
    (q.length < 1000 → queue_put q x = PutOutcome.accepted (q ++ [x])) := by
  constructor
  · intro h
    rw [queue_put, if_neg (by omega)]
  · intro h
    rw [queue_put, if_pos h]

set_option maxRecDepth 100000 in
/-- C5 (witness): a full queue of a thousand zeros blocks; a two-element
queue accepts at the tail. -/
theorem C5_witness :
    queue_put (List.replicate 1000 (0 : Nat)) 7 = PutOutcome.blocksProducer ∧
    queue_put [1, 2] (3 : Nat) = PutOutcome.accepted [1, 2, 3] :=
  ⟨(C5_queue_put (List.replicate 1000 (0 : Nat)) 7).1 (by decide),
   (C5_queue_put [1, 2] (3 : Nat)).2 (by decide)⟩

/-- C9: decoding a buffer of fewer than 27 bytes as a BT sighting fails with
the packet-too-short error, and decoding a buffer whose leading type byte is
not the 0x01 BT discriminator fails with the discriminator-mismatch error
carrying that byte; in both cases no sighting is returned. -/
theorem C9_malformed :
    (∀ data : List Nat, data.length < 27 →
      decode_bt_sighting data = Except.error DecodeError.packetTooShort) ∧
    (∀ data : List Nat, ¬(data.length < 27) → data.getD 0 0 ≠ 1 →
      decode_bt_sighting data = Except.error (DecodeError.invalidType (data.getD 0 0))) := by
  constructor
  · intro data h
    rw [decode_bt_sighting, if_pos h]
    rfl
  · intro data h h1
    rw [decode_bt_sighting, if_neg h]
    dsimp only
    rw [if_pos h1]
    rfl

/-- C9 (witness): a 10-byte buffer is rejected as too short, and a 27-byte
buffer whose first byte is 0x02 is rejected as a discriminator mismatch. -/
theorem C9_witness :
    decode_bt_sighting (List.replicate 10 0) =
      Except.error DecodeError.packetTooShort ∧
    decode_bt_sighting (2 :: List.replicate 26 0) =
      Except.error (DecodeError.invalidType 2) :=
  ⟨C9_malformed.1 (List.replicate 10 0) (by decide),
   C9_malformed.2 (2 :: List.replicate 26 0) (by decide) (by decide)⟩

/-- C10: the global subscriber count stays non-negative under every sequence
of subscribe/unsubscribe events applied to a freshly constructed publisher,
and an unsubscribe arriving when the count is already 0 leaves it at 0
(`max(0, n - 1)` in `on_live_feed_unsubscribe`). -/
theorem C10_subscribers_nonneg :
    (∀ evs : List SubEvent, 0 ≤ (applyEvents initPublisher evs).subscribers) ∧
    (∀ s : PublisherState, s.subscribers = 0 →
      (on_live_feed_unsubscribe s).subscribers = 0) := by
  constructor
  · intro evs
    exact subscribers_nonneg_aux evs initPublisher (by decide)
  · intro s hs
    simp [on_live_feed_unsubscribe, hs]

/-- C10 (witness): two unsubscribes then a subscribe from a fresh publisher
leave the count at 1 ≥ 0, and an unsubscribe at count 0 stays at 0. -/
theorem C10_witness :
    0 ≤ (applyEvents initPublisher
      [SubEvent.unsubscribe, SubEvent.unsubscribe, SubEvent.subscribe]).subscribers ∧
    (on_live_feed_unsubscribe initPublisher).subscribers = 0 :=
  ⟨C10_subscribers_nonneg.1 _, C10_subscribers_nonneg.2 initPublisher rfl⟩

theorem encodePackets_length : ∀ (recs : List (BTSighting ⊕ WiFiSighting))
    (seq0 : Nat) (ps : List (List Nat)),
    encodePackets seq0 recs = some ps → ps.length = recs.length := by
  intro recs
  induction recs with
  | nil =>
    intro seq0 ps h
    simp only [encodePackets, Option.some.injEq] at h
    simp [← h]
  | cons r rs ih =>
    intro seq0 ps h
    simp only [encodePackets, Option.bind_eq_bind, Option.bind_eq_some,
      Option.some.injEq] at h
    obtain ⟨p, _hp, ps', hps', hcons⟩ := h
    rw [← hcons]
    simp [ih (seq0 + 1) ps' hps']

theorem mapM_except_map {α β ε : Type} (g : α → β) (f : β → Except ε α) :
    ∀ l : List α, (∀ a ∈ l, f (g a) = Except.ok a) → (l.map g).mapM f = Except.ok l := by
  intro l
  induction l with
  | nil => intro _; rfl
  | cons a as ih =>
    intro h
    rw [List.map_cons, List.mapM_cons, h a (by simp),
      ih (fun b hb => h b (by simp [hb]))]
    rfl

/-- C6: for a bulk response to a request matching at least one record (and
small enough that the chunk count fits the unsigned 16-bit header field, the
range in which Python's `struct.pack("<H", …)` does not raise), the emitted
notifications decode to chunks whose ids are exactly 0..total−1 in order,
whose `total_chunks` fields all equal the chunk count, and whose payloads
concatenate byte-for-byte to the concatenation of the individually encoded
records — which `get_bulk_sightings` produces in BT-then-WiFi order, each
type time-ascending, with bulk-local sequence numbers 0, 1, 2, … across the
response. -/
theorem C6_bulk_reconstruction (bts : List BTSighting) (wifis : List WiFiSighting)
    (t0 t1 sty : Nat) (pkts : List (List Nat))
    (h : get_bulk_sightings bts wifis t0 t1 sty = some pkts)
    (hne : pkts ≠ [])
    (hfit : pkts.flatten.length ≤ 480 * 65535) :
    ∃ ems, on_bulk_request bts wifis ⟨t0, t1, sty⟩ = some ems ∧
      ems.mapM decode_bulk_chunk = Except.ok (bulkChunks pkts.flatten) ∧
      (bulkChunks pkts.flatten).map BulkChunk.chunk_id =
        List.range ((pkts.flatten.length + CHUNK_SIZE - 1) / CHUNK_SIZE) ∧
      (∀ c ∈ bulkChunks pkts.flatten,
        c.total_chunks = (pkts.flatten.length + CHUNK_SIZE - 1) / CHUNK_SIZE) ∧
      ((bulkChunks pkts.flatten).map BulkChunk.data).flatten = pkts.flatten ∧
      pkts.length = (bulkRecords bts wifis t0 t1 sty).length := by
  have htot : (pkts.flatten.length + CHUNK_SIZE - 1) / CHUNK_SIZE ≤ 65535 := by
    simp only [CHUNK_SIZE]
    omega
  have hbnd : ∀ c ∈ bulkChunks pkts.flatten, c.chunk_id < 65536 ∧
      c.total_chunks < 65536 := by
    intro c hc
    simp only [bulkChunks, List.mem_map, List.mem_range] at hc
    obtain ⟨i, hi, rfl⟩ := hc
    dsimp only
    exact ⟨by omega, by omega⟩
  have hemsEq : (bulkChunks pkts.flatten).mapM encode_bulk_chunk =
      some ((bulkChunks pkts.flatten).map (fun c => c.chunk_id % 256 ::
        c.chunk_id / 256 :: c.total_chunks % 256 :: c.total_chunks / 256 :: c.data)) :=
    mapM_option_of_pointwise _ _ _ (fun c hc =>
      encode_bulk_chunk_eq c (hbnd c hc).1 (hbnd c hc).2)
  refine ⟨(bulkChunks pkts.flatten).map (fun c => c.chunk_id % 256 ::
    c.chunk_id / 256 :: c.total_chunks % 256 :: c.total_chunks / 256 :: c.data),
    ?_, ?_, ?_, ?_, ?_, ?_⟩
  · simp only [on_bulk_request, h, Option.bind_eq_bind, Option.some_bind]
    rw [if_neg hne]
    exact hemsEq
  · refine mapM_except_map _ _ (bulkChunks pkts.flatten) ?_
    intro c _
    exact decode_encode_bulk_chunk c
  · simp only [bulkChunks, List.map_map]
    refine Eq.trans (List.map_congr_left ?_) (List.map_id _)
    intro i _
    rfl
  · intro c hc
    simp only [bulkChunks, List.mem_map, List.mem_range] at hc
    obtain ⟨i, _, rfl⟩ := hc
    rfl
  · simp only [bulkChunks, List.map_map]
    have hcomp : ((List.range ((pkts.flatten.length + CHUNK_SIZE - 1) / CHUNK_SIZE)).map
        (BulkChunk.data ∘ fun i =>
          { chunk_id := i
            total_chunks := (pkts.flatten.length + CHUNK_SIZE - 1) / CHUNK_SIZE
            data := (pkts.flatten.drop (CHUNK_SIZE * i)).take CHUNK_SIZE })) =
        (List.range ((pkts.flatten.length + CHUNK_SIZE - 1) / CHUNK_SIZE)).map
          (fun i => (pkts.flatten.drop (480 * i)).take 480) := by
      refine List.map_congr_left ?_
      intro i _
      rfl
    rw [hcomp]
    refine flatten_chunk_slices _ _ ?_
    simp only [CHUNK_SIZE]
    omega
  · exact encodePackets_length _ 0 pkts h

/-- C6 (witness): a store with one BT and one WiFi record, both inside the
requested range, yields a reconstructible single-chunk response. -/
theorem C6_witness :
    ∃ ems, on_bulk_request [exBt] [exWifi]
        ⟨1600000000, 1800000000, 0⟩ = some ems ∧
      ems.mapM decode_bulk_chunk = Except.ok (bulkChunks
        (((get_bulk_sightings [exBt] [exWifi] 1600000000 1800000000 0).getD
          []).flatten)) ∧
      (bulkChunks (((get_bulk_sightings [exBt] [exWifi] 1600000000 1800000000
          0).getD []).flatten)).map BulkChunk.chunk_id =
        List.range (((((get_bulk_sightings [exBt] [exWifi] 1600000000 1800000000
          0).getD []).flatten).length + CHUNK_SIZE - 1) / CHUNK_SIZE) ∧
      (∀ c ∈ bulkChunks (((get_bulk_sightings [exBt] [exWifi] 1600000000
          1800000000 0).getD []).flatten),
        c.total_chunks = (((((get_bulk_sightings [exBt] [exWifi] 1600000000
          1800000000 0).getD []).flatten).length + CHUNK_SIZE - 1) / CHUNK_SIZE)) ∧
      ((bulkChunks (((get_bulk_sightings [exBt] [exWifi] 1600000000 1800000000
          0).getD []).flatten)).map BulkChunk.data).flatten =
        ((get_bulk_sightings [exBt] [exWifi] 1600000000 1800000000 0).getD
          []).flatten ∧
      ((get_bulk_sightings [exBt] [exWifi] 1600000000 1800000000 0).getD
        []).length = (bulkRecords [exBt] [exWifi] 1600000000 1800000000 0).length :=
  C6_bulk_reconstruction [exBt] [exWifi] 1600000000 1800000000 0
    ((get_bulk_sightings [exBt] [exWifi] 1600000000 1800000000 0).getD [])
    rfl (by decide) (by decide)

/-- C7: a bulk request whose time range and type selector match zero stored
records produces exactly one emitted chunk, which decodes to chunk id 0,
`total_chunks = 0` and an empty payload — a marker distinct from a
single-chunk response with `total_chunks = 1` and empty payload. -/
theorem C7_empty_bulk (bts : List BTSighting) (wifis : List WiFiSighting)
    (t0 t1 sty : Nat) (h : bulkRecords bts wifis t0 t1 sty = []) :
    on_bulk_request bts wifis ⟨t0, t1, sty⟩ = some [[0, 0, 0, 0]] ∧
    decode_bulk_chunk [0, 0, 0, 0] =
      Except.ok { chunk_id := 0, total_chunks := 0, data := [] } ∧
    ({ chunk_id := 0, total_chunks := 0, data := [] } : BulkChunk) ≠
      { chunk_id := 0, total_chunks := 1, data := [] } := by
  refine ⟨?_, rfl, by decide⟩
  simp only [on_bulk_request, get_bulk_sightings, h, encodePackets,
    Option.bind_eq_bind, Option.some_bind]
  rw [if_pos trivial]
  rfl

/-- C7 (witness): a non-empty store with a request range that matches
nothing (the stored timestamps lie outside [10, 20]). -/
theorem C7_witness :
    on_bulk_request [exBt] [exWifi] ⟨10, 20, 0⟩ = some [[0, 0, 0, 0]] ∧
    decode_bulk_chunk [0, 0, 0, 0] =
      Except.ok { chunk_id := 0, total_chunks := 0, data := [] } ∧
    ({ chunk_id := 0, total_chunks := 0, data := [] } : BulkChunk) ≠
      { chunk_id := 0, total_chunks := 1, data := [] } :=
  C7_empty_bulk [exBt] [exWifi] 10 20 0 (by decide)

/-- C8: encoding an absent latitude/longitude pair produces exactly the
little-endian bytes of the signed 32-bit sentinel `0x7FFFFFFF`
(`[255, 255, 255, 127]`) in both coordinate fields; decoding that byte pair
yields `(none, none)`; and no other 4-byte coordinate value decodes to
`none` — a field decodes to `none` exactly when its bytes are the
sentinel's. -/
theorem C8_sentinel_law :
    encode_lat_lon none none =
      some ([255, 255, 255, 127], [255, 255, 255, 127]) ∧
    decode_lat_lon [255, 255, 255, 127] [255, 255, 255, 127] = (none, none) ∧
    (∀ latB lonB : List Nat, latB.length = 4 → lonB.length = 4 →
      (∀ b ∈ latB, b < 256) → (∀ b ∈ lonB, b < 256) →
      ((decode_lat_lon latB lonB).1 = none → latB = [255, 255, 255, 127]) ∧
      ((decode_lat_lon latB lonB).2 = none → lonB = [255, 255, 255, 127])) := by
  refine ⟨rfl, rfl, ?_⟩
  intro latB lonB hla hlo hba hbo
  constructor
  · intro h
    rcases latB with _ | ⟨a, _ | ⟨b, _ | ⟨c, _ | ⟨d, _ | ⟨e, tl⟩⟩⟩⟩⟩ <;>
      simp only [List.length_cons, List.length_nil] at hla <;>
      try (exfalso; omega)
    simp only [decode_lat_lon] at h
    by_cases hs : unpackI32 [a, b, c, d] = 2147483647
    · have ha := hba a (by simp)
      have hb := hba b (by simp)
      have hc := hba c (by simp)
      have hd := hba d (by simp)
      simp only [unpackI32, unpackU32] at hs
      have : a = 255 ∧ b = 255 ∧ c = 255 ∧ d = 127 := by omega
      simp [this.1, this.2.1, this.2.2.1, this.2.2.2]
    · rw [if_neg hs] at h
      exact absurd h (by simp)
  · intro h
    rcases lonB with _ | ⟨a, _ | ⟨b, _ | ⟨c, _ | ⟨d, _ | ⟨e, tl⟩⟩⟩⟩⟩ <;>
      simp only [List.length_cons, List.length_nil] at hlo <;>
      try (exfalso; omega)
    simp only [decode_lat_lon] at h
    by_cases hs : unpackI32 [a, b, c, d] = 2147483647
    · have ha := hbo a (by simp)
      have hb := hbo b (by simp)
      have hc := hbo c (by simp)
      have hd := hbo d (by simp)
      simp only [unpackI32, unpackU32] at hs
      have : a = 255 ∧ b = 255 ∧ c = 255 ∧ d = 127 := by omega
      simp [this.1, this.2.1, this.2.2.1, this.2.2.2]
    · rw [if_neg hs] at h
      exact absurd h (by simp)

/-- C8 (witness): instantiated at the sentinel bytes and an all-zero
longitude: the sentinel latitude field is forced back to the sentinel byte
pattern. -/
theorem C8_witness :
    (decode_lat_lon [255, 255, 255, 127] [0, 0, 0, 0]).1 = none →
      [255, 255, 255, 127] = [255, 255, 255, 127] :=
  ((C8_sentinel_law.2.2 [255, 255, 255, 127] [0, 0, 0, 0] (by decide) (by decide)
    (by decide) (by decide)).1)

/-- C2 (counterexample): truncation is *not* to a 32-byte cap: a 40-character
name of two-byte UTF-8 characters ('ą', U+0105) is truncated to 32
characters, which encode to 64 bytes, and the length-prefix byte of the
encoded packet is 64 — exceeding the claimed 32-byte cap. -/
theorem C2_counterexample :
    ((encode_bt_sighting exBtFat 0).getD []).getD 24 0 = 64 ∧
    ¬((encode_bt_sighting exBtFat 0).getD []).getD 24 0 ≤ 32 := by
  decide

/-- C2 (amended): string fields are UTF-8 encoded after hard truncation to a
*character* cap — 32 characters for name and SSID, 20 for manufacturer —
applied before length-prefixing, so no multi-byte character is ever split;
the length-prefix byte equals the truncated UTF-8 byte length exactly, which
is bounded by 128 bytes (name/SSID) and 80 bytes (manufacturer), and only
for an all-ASCII string is it bounded by the character cap itself (so a
40-character ASCII name truncates to exactly 32 bytes, but a non-ASCII one
may encode to more). -/
theorem C2_truncation (x : BTSighting) (y : WiFiSighting) (s1 s2 : Nat)
    (pkt1 pkt2 : List Nat) (hx : btValid x s1) (hy : wifiValid y s2)
    (he1 : encode_bt_sighting x s1 = some pkt1)
    (he2 : encode_wifi_sighting y s2 = some pkt2) :
    pkt1.getD 24 0 = (btNameBytes x).length ∧
    pkt1.getD 25 0 = (btMfrBytes x).length ∧
    byteSlice pkt1 26 (26 + (btNameBytes x).length) = btNameBytes x ∧
    byteSlice pkt1 (26 + (btNameBytes x).length)
      (26 + (btNameBytes x).length + (btMfrBytes x).length) = btMfrBytes x ∧
    btNameBytes x = utf8EncodeStr ((pyOr x.local_name).take 32) ∧
    btMfrBytes x = utf8EncodeStr ((pyOr x.manufacturer).take 20) ∧
    (btNameBytes x).length ≤ 128 ∧ (btMfrBytes x).length ≤ 80 ∧
    ((∀ c ∈ pyOr x.local_name, c < 128) → (btNameBytes x).length ≤ 32) ∧
    pkt2.getD 22 0 = (wifiSsidBytes y).length ∧
    byteSlice pkt2 23 (23 + (wifiSsidBytes y).length) = wifiSsidBytes y ∧
    wifiSsidBytes y = utf8EncodeStr (y.ssid.take 32) ∧
    (wifiSsidBytes y).length ≤ 128 ∧
    ((∀ c ∈ y.ssid, c < 128) → (wifiSsidBytes y).length ≤ 32) := by
  obtain ⟨hseq, hts, ⟨macB, hmac, hlen6, _⟩, hlat, hlon, hrssi, htx, hname, hmfr⟩ := hx
  obtain ⟨hseq2, hts2, ⟨macB2, hmac2, hlen62, _⟩, hlat2, hlon2, hrssi2, hssid2⟩ := hy
  rw [encode_bt_shape x s1 macB hmac hseq hts (coordInt_bounds _ hlat)
    (coordInt_bounds _ hlon) (rssiInt_bounds _ hrssi) (txPowerInt_bounds _ htx)] at he1
  rw [encode_wifi_shape y s2 macB2 hmac2 hseq2 hts2 (coordInt_bounds _ hlat2)
    (coordInt_bounds _ hlon2) (rssiInt_bounds _ hrssi2)] at he2
  rcases macB with _ | ⟨m0, _ | ⟨m1, _ | ⟨m2, _ | ⟨m3, _ | ⟨m4, _ | ⟨m5, _ | ⟨m6, mrest⟩⟩⟩⟩⟩⟩⟩ <;>
    simp only [List.length_cons, List.length_nil] at hlen6 <;>
    try (exfalso; omega)
  rcases macB2 with _ | ⟨n0, _ | ⟨n1, _ | ⟨n2, _ | ⟨n3, _ | ⟨n4, _ | ⟨n5, _ | ⟨n6, nrest⟩⟩⟩⟩⟩⟩⟩ <;>
    simp only [List.length_cons, List.length_nil] at hlen62 <;>
    try (exfalso; omega)
  simp only [i32Bytes, u32Bytes, List.cons_append, List.nil_append] at he1 he2
  have hp1 := Option.some.inj he1
  have hp2 := Option.some.inj he2
  subst hp1
  subst hp2
  have hnb : (btNameBytes x).length ≤ 128 := by
    have h4 := utf8EncodeStr_length_le ((pyOr x.local_name).take 32)
    have hmin := List.length_take 32 (pyOr x.local_name)
    simp only [btNameBytes]
    omega
  have hmb : (btMfrBytes x).length ≤ 80 := by
    have h4 := utf8EncodeStr_length_le ((pyOr x.manufacturer).take 20)
    have hmin := List.length_take 20 (pyOr x.manufacturer)
    simp only [btMfrBytes]
    omega
  have hsb : (wifiSsidBytes y).length ≤ 128 := by
    have h4 := utf8EncodeStr_length_le (y.ssid.take 32)
    have hmin := List.length_take 32 y.ssid
    simp only [wifiSsidBytes]
    omega
  have hnasc : (∀ c ∈ pyOr x.local_name, c < 128) → (btNameBytes x).length ≤ 32 := by
    intro hac
    have hall : ∀ c ∈ (pyOr x.local_name).take 32, c < 128 := fun c hc =>
      hac c (List.take_subset _ _ hc)
    simp only [btNameBytes]
    rw [utf8EncodeStr_length_ascii _ hall]
    have hmin := List.length_take 32 (pyOr x.local_name)
    omega
  have hsasc : (∀ c ∈ y.ssid, c < 128) → (wifiSsidBytes y).length ≤ 32 := by
    intro hac
    have hall : ∀ c ∈ y.ssid.take 32, c < 128 := fun c hc =>
      hac c (List.take_subset _ _ hc)
    simp only [wifiSsidBytes]
    rw [utf8EncodeStr_length_ascii _ hall]
    have hmin := List.length_take 32 y.ssid
    omega
  refine ⟨?_, ?_, ?_, ?_, rfl, rfl, hnb, hmb, hnasc, ?_, ?_, rfl, hsb, hsasc⟩
  · simp only [List.getD_cons_succ, List.getD_cons_zero]
  · simp only [List.getD_cons_succ, List.getD_cons_zero]
  · simp only [byteSlice, List.drop_succ_cons, List.drop_zero,
      Nat.add_sub_cancel_left, List.take_left]
  · simp only [byteSlice, Nat.add_sub_cancel_left]
    rw [← List.drop_drop (btNameBytes x).length 26]
    simp only [List.drop_succ_cons, List.drop_zero, List.drop_left, List.take_length]
  · simp only [List.getD_cons_succ, List.getD_cons_zero]
  · simp only [byteSlice, List.drop_succ_cons, List.drop_zero,
      Nat.add_sub_cancel_left, List.take_left]
    exact List.take_length _

/-- C2 (witness): instantiated at the concrete BT and WiFi sightings of the
test scenario (name `"SAR-Beacon"`, SSID `"Net"`), at seq 0. -/
theorem C2_witness :
    ((encode_bt_sighting exBt 0).getD []).getD 24 0 = (btNameBytes exBt).length ∧
    ((encode_bt_sighting exBt 0).getD []).getD 25 0 = (btMfrBytes exBt).length ∧
    byteSlice ((encode_bt_sighting exBt 0).getD []) 26
      (26 + (btNameBytes exBt).length) = btNameBytes exBt ∧
    byteSlice ((encode_bt_sighting exBt 0).getD [])
      (26 + (btNameBytes exBt).length)
      (26 + (btNameBytes exBt).length + (btMfrBytes exBt).length) = btMfrBytes exBt ∧
    btNameBytes exBt = utf8EncodeStr ((pyOr exBt.local_name).take 32) ∧
    btMfrBytes exBt = utf8EncodeStr ((pyOr exBt.manufacturer).take 20) ∧
    (btNameBytes exBt).length ≤ 128 ∧ (btMfrBytes exBt).length ≤ 80 ∧
    ((∀ c ∈ pyOr exBt.local_name, c < 128) → (btNameBytes exBt).length ≤ 32) ∧
    ((encode_wifi_sighting exWifi 0).getD []).getD 22 0 = (wifiSsidBytes exWifi).length ∧
    byteSlice ((encode_wifi_sighting exWifi 0).getD []) 23
      (23 + (wifiSsidBytes exWifi).length) = wifiSsidBytes exWifi ∧
    wifiSsidBytes exWifi = utf8EncodeStr (exWifi.ssid.take 32) ∧
    (wifiSsidBytes exWifi).length ≤ 128 ∧
    ((∀ c ∈ exWifi.ssid, c < 128) → (wifiSsidBytes exWifi).length ≤ 32) :=
  C2_truncation exBt exWifi 0 0
    ((encode_bt_sighting exBt 0).getD []) ((encode_wifi_sighting exWifi 0).getD [])
    ⟨by decide, by decide, ⟨[170, 187, 204, 221, 238, 255], by decide⟩,
      by decide, by decide, by decide, by decide, by decide, by decide⟩
    ⟨by decide, by decide, ⟨[170, 187, 204, 221, 238, 255], by decide⟩,
      by decide, by decide, by decide, by decide⟩
    rfl rfl
